import Mathlib

/-!
Verification of the Euclid-O-Matic Euclidean rhythm sequencer
(two Arduino sketch variants: `Euclid-O-Matic.ino` and the earlier
variant `part_000`).

The patterns live in AVR `unsigned int` variables, which are 16 bits
wide on the target (ATmega328), so machine arithmetic on patterns is
modelled as natural numbers reduced modulo 2^16 = 65536 where the C
code can overflow.  `int` values (pulse counts, pattern lengths,
encoder positions) are modelled as `Int`; in the ranges exercised by
the claims they stay far from the 16-bit `int` bounds.
-/

namespace EuclidOMatic

/-- Width of the `unsigned int` type on the target, as a modulus
(`2 ^ 16 = 65536`). -/
def UINT_MOD : Nat := 2 ^ 16

/-- `euclid` from both sketches: bucket/Bresenham spread of `pulses`
over `patternLength` steps.  The C loop is
`for i in [0, patternLength): bucket += pulses; if bucket >= patternLength
 then bucket -= patternLength; number |= 1 << i`.
The fold state is `(bucket, number)`.  `1 << i` lands in a 16-bit
`unsigned int`, hence the reduction modulo 65536. -/
def euclid (pulses patternLength : Nat) : Nat :=
  ((List.range patternLength).foldl
    (fun (st : Nat × Nat) i =>
      let bucket := st.1 + pulses
      if bucket ≥ patternLength then
        (bucket - patternLength, (st.2 ||| (1 <<< i)) % 2 ^ 16)
      else
        (bucket, st.2))
    (0, 0)).2

/-- Population count of a 16-bit value (the width of the `unsigned int`
holding a channel pattern). -/
def popcount (n : Nat) : Nat :=
  (List.range 16).countP (fun i => n.testBit i)

/-- C1 (corrected): the bucket algorithm at `pulses = 5`, `length = 16`
yields the bit positions `{3, 6, 9, 12, 15}` (value 37448), not the
claimed `{0, 3, 6, 9, 12, 14}`. -/
theorem euclid_5_16_positions :
    (List.range 16).filter (fun i => Nat.testBit (euclid 5 16) i)
      = [3, 6, 9, 12, 15] ∧ euclid 5 16 < 2 ^ 16 := by
  decide

/-- C1 counterexample: the set of set bit positions of `euclid 5 16` is
not `{0, 3, 6, 9, 12, 14}` (in particular bit 0 is clear). -/
theorem euclid_5_16_not_claimed_positions :
    (List.range 16).filter (fun i => Nat.testBit (euclid 5 16) i)
      ≠ [0, 3, 6, 9, 12, 14] ∧ Nat.testBit (euclid 5 16) 0 = false := by
  decide

/-- Bounded enumeration of the generator facts used by C2, C3 and C10:
for every `length < 17` and `pulses ≤ length`, the generated pattern
has exactly `pulses` set bits, all below `length`; bit 0 is set exactly
when `pulses = length`; and bit `length - 1` is set whenever
`pulses ≥ 1`. -/
theorem euclid_enum :
    ∀ l < 17, ∀ p < l + 1,
      (popcount (euclid p l) = p ∧ euclid p l < 2 ^ l) ∧
      (1 ≤ p → (Nat.testBit (euclid p l) 0 = true ↔ p = l)) ∧
      (1 ≤ p → Nat.testBit (euclid p l) (l - 1) = true) := by
  decide

/-- C2: for `0 ≤ pulses ≤ length ≤ 16` the generated pattern has
exactly `pulses` set bits, and they all lie among the low `length`
bits (the pattern is `< 2 ^ length`). -/
theorem euclid_popcount (p l : Nat) (hpl : p ≤ l) (hl : l ≤ 16) :
    popcount (euclid p l) = p ∧ euclid p l < 2 ^ l :=
  (euclid_enum l (by omega) p (by omega)).1

/-- C2 witness at `pulses = 5`, `length = 16`. -/
theorem euclid_popcount_witness :
    (5 ≤ 16 ∧ 16 ≤ 16) ∧ (popcount (euclid 5 16) = 5 ∧ euclid 5 16 < 2 ^ 16) :=
  ⟨by decide, euclid_popcount 5 16 (by decide) (by decide)⟩

/-- C3 (corrected): for `1 ≤ pulses ≤ length ≤ 16`, bit 0 of the
generated pattern is set exactly when `pulses = length`; the algorithm
does not fire on the first step otherwise. -/
theorem euclid_first_step (p l : Nat) (h1 : 1 ≤ p) (hpl : p ≤ l) (hl : l ≤ 16) :
    Nat.testBit (euclid p l) 0 = true ↔ p = l :=
  (euclid_enum l (by omega) p (by omega)).2.1 h1

/-- C3 witness at `pulses = 2`, `length = 2` (a full pattern, bit 0 set). -/
theorem euclid_first_step_witness :
    (1 ≤ 2 ∧ 2 ≤ 2 ∧ 2 ≤ 16) ∧ (Nat.testBit (euclid 2 2) 0 = true ↔ 2 = 2) :=
  ⟨by decide, euclid_first_step 2 2 (by decide) (by decide) (by decide)⟩

/-- C3 counterexample: at `pulses = 1`, `length = 2` (which satisfies
`1 ≤ pulses ≤ length ≤ 16`) bit 0 of the generated pattern is clear. -/
theorem euclid_first_step_fails :
    (1 ≤ 1 ∧ 1 ≤ 2 ∧ 2 ≤ 16) ∧ Nat.testBit (euclid 1 2) 0 = false := by
  decide

/-- C10: for `1 ≤ pulses ≤ length ≤ 16` the generated rhythm always
fires on the last step: bit `length - 1` is set. -/
theorem euclid_last_step (p l : Nat) (h1 : 1 ≤ p) (hpl : p ≤ l) (hl : l ≤ 16) :
    Nat.testBit (euclid p l) (l - 1) = true :=
  (euclid_enum l (by omega) p (by omega)).2.2 h1

/-- C10 witness at `pulses = 3`, `length = 8`. -/
theorem euclid_last_step_witness :
    (1 ≤ 3 ∧ 3 ≤ 8 ∧ 8 ≤ 16) ∧ Nat.testBit (euclid 3 8) 7 = true :=
  ⟨by decide, euclid_last_step 3 8 (by decide) (by decide) (by decide)⟩

/-- `rotateLeft` from both sketches: the old bit `patternLength - 1`
is reinserted as the new bit 0 after shifting the whole 16-bit word
left by one.  C code:
`DROPPED_MSB = (pattern >> (patternLength - 1)) & 1;
 pattern = (pattern << 1) | DROPPED_MSB;`
done in a 16-bit `unsigned int`, hence the reduction modulo `2 ^ 16`.
(The shift count `patternLength - 1` is an `int` in C; this total model
uses truncated subtraction, the checked model below keeps the sign.) -/
def rotateLeft (pattern patternLength : Nat) : Nat :=
  ((pattern <<< 1) ||| ((pattern >>> (patternLength - 1)) &&& 1)) % 2 ^ 16

/-- `rotateRight` from both sketches.  C code:
`DROPPED_LSB = pattern & 1;
 pattern = (pattern >> 1) & (~(1 << (patternLength - 1)));
 pattern = pattern | (DROPPED_LSB << (patternLength - 1));`
with `~x` on a 16-bit `unsigned int` modelled as `(2 ^ 16 - 1) ^^^ x`. -/
def rotateRight (pattern patternLength : Nat) : Nat :=
  (((pattern >>> 1) &&& ((2 ^ 16 - 1) ^^^ (1 <<< (patternLength - 1)))) |||
    ((pattern &&& 1) <<< (patternLength - 1))) % 2 ^ 16

/-- `rotateLeft` with the C `int` shift count kept: `patternLength - 1`
is negative when `patternLength = 0`, and a shift by a negative amount
is undefined behaviour in C, modelled as `none`. -/
def rotateLeftChecked (pattern : Nat) (patternLength : Int) : Option Nat :=
  if patternLength - 1 < 0 then none
  else some (rotateLeft pattern patternLength.toNat)

/-- `rotateRight` with the C `int` shift count kept; `none` models the
undefined shift by a negative amount when `patternLength = 0`. -/
def rotateRightChecked (pattern : Nat) (patternLength : Int) : Option Nat :=
  if patternLength - 1 < 0 then none
  else some (rotateRight pattern patternLength.toNat)

/-- Bit `j` of the constant `1`. -/
theorem testBit_one (j : Nat) : Nat.testBit 1 j = decide (j = 0) := by
  cases j with
  | zero => decide
  | succ j => simp [Nat.testBit_succ]

/-- Bit `j` of the all-ones 16-bit mask. -/
theorem testBit_allOnes16 (j : Nat) (h : j < 16) : Nat.testBit 65535 j = true := by
  rw [show (65535 : Nat) = 2 ^ 16 - 1 from by norm_num,
    Nat.testBit_two_pow_sub_one]
  simpa using h

/-- One `rotateLeft` on the low `patternLength`-bit window: bit 0 takes
the old bit `patternLength - 1`, bit `i ≥ 1` takes the old bit `i - 1`. -/
theorem testBit_rotateLeft (p len i : Nat) (h16 : len ≤ 16) (hi : i < len) :
    (rotateLeft p len).testBit i = p.testBit (if i = 0 then len - 1 else i - 1) := by
  have hi16 : i < 16 := lt_of_lt_of_le hi h16
  unfold rotateLeft
  rw [Nat.testBit_mod_two_pow]
  cases i with
  | zero => simp
  | succ j =>
      have h22 : (2 : Nat) ≤ 2 ^ (j + 1) := by
        have h := Nat.pow_le_pow_right (show 0 < 2 from by norm_num)
          (show 1 ≤ j + 1 from by omega)
        simpa using h
      have hfalse : ((p >>> (len - 1)) % 2).testBit (j + 1) = false := by
        apply Nat.testBit_lt_two_pow
        have hm := Nat.mod_lt (p >>> (len - 1)) (show 0 < 2 from by norm_num)
        omega
      simp [hi16, testBit_one, hfalse, Nat.succ_sub_one]

/-- One `rotateRight` on the low `patternLength`-bit window: bit
`patternLength - 1` takes the old bit 0, bit `i < patternLength - 1`
takes the old bit `i + 1`. -/
theorem testBit_rotateRight (p len i : Nat) (h1 : 1 ≤ len) (h16 : len ≤ 16)
    (hi : i < len) :
    (rotateRight p len).testBit i = p.testBit (if i = len - 1 then 0 else i + 1) := by
  have hi16 : i < 16 := lt_of_lt_of_le hi h16
  unfold rotateRight
  rw [Nat.testBit_mod_two_pow]
  by_cases hc : i = len - 1
  · subst hc
    simp [hi16, testBit_one, Nat.add_comm 1 (len - 1),
      testBit_allOnes16 (len - 1) (by omega)]
  · have hlt : i < len - 1 := by omega
    simp [hi16, testBit_one, Nat.add_comm 1 i, testBit_allOnes16 i (by omega),
      show ¬(len - 1 ≤ i) from by omega, hc]

/-- Iterating `rotateLeft` `k` times moves bit `i` of the low window to
the old bit `(i + k * (len - 1)) % len`. -/
theorem rotateLeft_iterate_testBit (len : Nat) (h16 : len ≤ 16) (k p : Nat) :
    ∀ i, i < len →
      ((fun q => rotateLeft q len)^[k] p).testBit i
        = p.testBit ((i + k * (len - 1)) % len) := by
  induction k with
  | zero => intro i hi; simp [Nat.mod_eq_of_lt hi]
  | succ k ih =>
      intro i hi
      rw [Function.iterate_succ_apply', testBit_rotateLeft _ len i h16 hi]
      by_cases h0 : i = 0
      · subst h0
        rw [if_pos rfl, ih (len - 1) (by omega), Nat.succ_mul]
        have hnum : (0 : Nat) + (k * (len - 1) + (len - 1)) = len - 1 + k * (len - 1) := by
          generalize k * (len - 1) = K
          omega
        rw [hnum]
      · rw [if_neg h0, ih (i - 1) (by omega), Nat.succ_mul]
        have hnum : i + (k * (len - 1) + (len - 1)) = (i - 1 + k * (len - 1)) + len := by
          generalize k * (len - 1) = K
          omega
        rw [hnum, Nat.add_mod_right]

/-- Iterating `rotateRight` `k` times moves bit `i` of the low window to
the old bit `(i + k) % len`. -/
theorem rotateRight_iterate_testBit (len : Nat) (h1 : 1 ≤ len) (h16 : len ≤ 16)
    (k p : Nat) :
    ∀ i, i < len →
      ((fun q => rotateRight q len)^[k] p).testBit i
        = p.testBit ((i + k) % len) := by
  induction k with
  | zero => intro i hi; simp [Nat.mod_eq_of_lt hi]
  | succ k ih =>
      intro i hi
      rw [Function.iterate_succ_apply', testBit_rotateRight _ len i h1 h16 hi]
      by_cases h0 : i = len - 1
      · subst h0
        rw [if_pos rfl, ih 0 (by omega)]
        have hnum : len - 1 + (k + 1) = (0 + k) + len := by omega
        rw [hnum, Nat.add_mod_right]
      · rw [if_neg h0, ih (i + 1) (by omega)]
        have hnum : i + 1 + k = i + (k + 1) := by omega
        rw [hnum]

/-- C4: for every 16-bit pattern and `1 ≤ length ≤ 16`, applying
`rotateLeft` `length` times (or `rotateRight` `length` times) yields a
pattern whose low `length` bits equal the original pattern's low
`length` bits. -/
theorem rotate_roundtrip (p len : Nat) (_hp : p < 2 ^ 16) (h1 : 1 ≤ len)
    (h16 : len ≤ 16) :
    ((fun q => rotateLeft q len)^[len] p) % 2 ^ len = p % 2 ^ len ∧
    ((fun q => rotateRight q len)^[len] p) % 2 ^ len = p % 2 ^ len := by
  constructor
  · apply Nat.eq_of_testBit_eq
    intro i
    rw [Nat.testBit_mod_two_pow, Nat.testBit_mod_two_pow]
    by_cases hi : i < len
    · rw [rotateLeft_iterate_testBit len h16 len p i hi,
        Nat.add_mul_mod_self_left, Nat.mod_eq_of_lt hi]
    · simp [hi]
  · apply Nat.eq_of_testBit_eq
    intro i
    rw [Nat.testBit_mod_two_pow, Nat.testBit_mod_two_pow]
    by_cases hi : i < len
    · rw [rotateRight_iterate_testBit len h1 h16 len p i hi,
        Nat.add_mod_right, Nat.mod_eq_of_lt hi]
    · simp [hi]

/-- C4 witness at `pattern = 37448`, `length = 16`. -/
theorem rotate_roundtrip_witness :
    (37448 < 2 ^ 16 ∧ 1 ≤ 16 ∧ 16 ≤ 16) ∧
    (((fun q => rotateLeft q 16)^[16] 37448) % 2 ^ 16 = 37448 % 2 ^ 16 ∧
     ((fun q => rotateRight q 16)^[16] 37448) % 2 ^ 16 = 37448 % 2 ^ 16) :=
  ⟨by decide, rotate_roundtrip 37448 16 (by decide) (by decide) (by decide)⟩

/-- C5 (corrected): with `length = 1` both rotations are defined and
are no-ops on the low bit; with `length = 0` both rotations evaluate a
shift by the negative amount `-1` (undefined behaviour, `none`): the
degenerate case is not guarded. -/
theorem rotate_degenerate_lengths (p : Nat) :
    rotateLeftChecked p 1 = some (rotateLeft p 1) ∧
    rotateLeft p 1 % 2 = p % 2 ∧
    rotateRightChecked p 1 = some (rotateRight p 1) ∧
    rotateRight p 1 % 2 = p % 2 ∧
    rotateLeftChecked p 0 = none ∧
    rotateRightChecked p 0 = none := by
  refine ⟨rfl, ?_, rfl, ?_, rfl, rfl⟩
  · have h := testBit_rotateLeft p 1 0 (by omega) (by omega)
    simp at h
    omega
  · have h := testBit_rotateRight p 1 0 (by omega) (by omega) (by omega)
    simp at h
    omega

/-- C5 counterexample: at `length = 0` the rotations do evaluate a
shift by a negative amount; the error branch is reachable, not guarded. -/
theorem rotate_length_zero_unguarded :
    rotateLeftChecked 1 0 = none ∧ rotateRightChecked 1 0 = none := by
  decide

/-- One tempo decrement (positive detent while the tap-tempo button is
held): `delayTime -= 1; if (delayTime < 10) delayTime = 10;` on the
16-bit `unsigned int` `delayTime`, so the decrement wraps at 0. -/
def tempoDec (t : Nat) : Nat :=
  if (t + 2 ^ 16 - 1) % 2 ^ 16 < 10 then 10 else (t + 2 ^ 16 - 1) % 2 ^ 16

/-- One tempo increment (negative detent while the tap-tempo button is
held): `delayTime += 1; if (delayTime > MAX_DELAY_TIME) delayTime =
MAX_DELAY_TIME;` with `MAX_DELAY_TIME = 500`. -/
def tempoInc (t : Nat) : Nat :=
  if (t + 1) % 2 ^ 16 > 500 then 500 else (t + 1) % 2 ^ 16

/-- External-clock tempo capture: `delayTime = thisTime - prevTime;`
where both times are 32-bit `unsigned long` values (wrapping
subtraction) and the result is stored into the 16-bit `unsigned int`
`delayTime` (truncation).  No clamping is applied. -/
def captureTempo (thisTime prevTime : Nat) : Nat :=
  ((thisTime + 2 ^ 32 - prevTime) % 2 ^ 32) % 2 ^ 16

/-- C8 (corrected, encoder part): encoder tempo edits keep
`delayTime` inside `[10, 500]`. -/
theorem tempo_encoder_clamp (t : Nat) (h10 : 10 ≤ t) (h500 : t ≤ 500) :
    (10 ≤ tempoDec t ∧ tempoDec t ≤ 500) ∧
    (10 ≤ tempoInc t ∧ tempoInc t ≤ 500) := by
  unfold tempoDec tempoInc
  constructor
  · constructor <;> split <;> omega
  · constructor <;> split <;> omega

/-- C8 witness at `delayTime = 10` (the lower clamp). -/
theorem tempo_encoder_clamp_witness :
    (10 ≤ 10 ∧ 10 ≤ 500) ∧
    ((10 ≤ tempoDec 10 ∧ tempoDec 10 ≤ 500) ∧
     (10 ≤ tempoInc 10 ∧ tempoInc 10 ≤ 500)) :=
  ⟨by decide, tempo_encoder_clamp 10 (by decide) (by decide)⟩

/-- C8 counterexample: the external-clock capture writes the raw
measured interval; a 1000 ms gap between clock edges sets
`delayTime = 1000`, outside `[10, 500]`. -/
theorem tempo_capture_escapes_range :
    captureTempo 1000 0 = 1000 ∧ ¬(captureTempo 1000 0 ≤ 500) := by
  decide

/-- The per-channel edit state touched by the encoder dispatch of the
control loop: the selected channel's pulse count and pattern length
(C `int`), its pattern (16-bit `unsigned int`), and the tempo
`delayTime` (16-bit `unsigned int`). -/
structure EditState where
  pulses : Int
  patternLength : Int
  channelPattern : Nat
  delayTime : Nat
  deriving DecidableEq

/-- Encoder dispatch of the main sketch `Euclid-O-Matic.ino` for one
loop pass, restricted to the state in `EditState`.  Mode constants:
`NUM_PULSE_MODE = 2`, `ROTATE_MODE = 3` (with
`ALLOW_PATTERN_LENGTH_CHANGE` undefined, `PATTERN_LENGTH_MODE` is
compiled out and `PROGRAM_MODE = 4` edits only the candidate patch
index, outside this state).  In both modes the tap-tempo
(`escapeButton`) branch edits only the tempo; otherwise a detent
(`newPosition` vs `oldPosition ± 3`) edits the selected channel. -/
def inoModeStep (mode : Nat) (escapeButton : Bool) (newPosition oldPosition : Int)
    (s : EditState) : EditState :=
  match mode with
  | 2 =>
    if escapeButton then
      if newPosition < oldPosition - 3 then { s with delayTime := tempoDec s.delayTime }
      else if newPosition > oldPosition + 3 then { s with delayTime := tempoInc s.delayTime }
      else s
    else
      if newPosition < oldPosition - 3 then
        let pu := s.pulses + 1
        let pu := if pu > s.patternLength then s.patternLength else pu
        { s with pulses := pu,
                 channelPattern := euclid pu.toNat s.patternLength.toNat }
      else if newPosition > oldPosition + 3 then
        let pu := s.pulses - 1
        let pu := if pu < 0 then 0 else pu
        { s with pulses := pu,
                 channelPattern := euclid pu.toNat s.patternLength.toNat }
      else s
  | 3 =>
    if escapeButton then
      if newPosition < oldPosition - 3 then { s with delayTime := tempoDec s.delayTime }
      else if newPosition > oldPosition + 3 then { s with delayTime := tempoInc s.delayTime }
      else s
    else
      if newPosition > oldPosition + 3 then
        { s with channelPattern := rotateRight s.channelPattern s.patternLength.toNat }
      else if newPosition < oldPosition - 3 then
        { s with channelPattern := rotateLeft s.channelPattern s.patternLength.toNat }
      else s
  | _ => s

/-- Encoder dispatch of the `part_000` variant for one loop pass,
restricted to the state in `EditState`.  Mode constants:
`PATTERN_LENGTH_MODE = 1`, `NUM_PULSE_MODE = 2`, `ROTATE_MODE = 3`.
Only `PATTERN_LENGTH_MODE` checks the tap-tempo (`escapeButton`)
modifier; the other two modes edit the channel parameters regardless
of it.  (The `resetSteps` calls of this variant touch only the step
cursors, which are outside `EditState`.) -/
def part0ModeStep (mode : Nat) (escapeButton : Bool) (newPosition oldPosition : Int)
    (s : EditState) : EditState :=
  match mode with
  | 1 =>
    if escapeButton then
      if newPosition < oldPosition - 3 then { s with delayTime := tempoDec s.delayTime }
      else if newPosition > oldPosition + 3 then { s with delayTime := tempoInc s.delayTime }
      else s
    else
      if newPosition < oldPosition - 3 then
        let len := s.patternLength + 1
        let len := if len > 16 then 16 else len
        { s with patternLength := len,
                 channelPattern := euclid s.pulses.toNat len.toNat }
      else if newPosition > oldPosition + 3 then
        let len := s.patternLength - 1
        let len := if len < 0 then 0 else len
        { s with patternLength := len,
                 channelPattern := euclid s.pulses.toNat len.toNat }
      else s
  | 2 =>
    if newPosition < oldPosition - 3 then
      let pu := s.pulses + 1
      let pu := if pu > s.patternLength then s.patternLength else pu
      { s with pulses := pu,
               channelPattern := euclid pu.toNat s.patternLength.toNat }
    else if newPosition > oldPosition + 3 then
      let pu := s.pulses - 1
      let pu := if pu < 0 then 0 else pu
      { s with pulses := pu,
               channelPattern := euclid pu.toNat s.patternLength.toNat }
    else s
  | 3 =>
    if newPosition > oldPosition + 3 then
      { s with channelPattern := rotateRight s.channelPattern s.patternLength.toNat }
    else if newPosition < oldPosition - 3 then
      { s with channelPattern := rotateLeft s.channelPattern s.patternLength.toNat }
    else s
  | _ => s

/-- C7 (corrected, main-sketch part): in the main sketch, in every
non-program mode (`NUM_PULSE_MODE = 2`, `ROTATE_MODE = 3`), a detent
with the modifier held changes only `delayTime` — with floor 10 and
ceiling 500 — and leaves pulses, pattern length and pattern untouched. -/
theorem ino_modifier_suppresses_edits (mode : Nat) (hm : mode = 2 ∨ mode = 3)
    (np op : Int) (s : EditState) :
    (inoModeStep mode true np op s).pulses = s.pulses ∧
    (inoModeStep mode true np op s).patternLength = s.patternLength ∧
    (inoModeStep mode true np op s).channelPattern = s.channelPattern ∧
    (inoModeStep mode true np op s).delayTime =
      (if np < op - 3 then tempoDec s.delayTime
       else if np > op + 3 then tempoInc s.delayTime
       else s.delayTime) := by
  rcases hm with h | h <;> subst h <;>
    simp only [inoModeStep, if_true] <;> split <;> simp <;> split <;> simp

/-- C7 witness: main sketch, `NUM_PULSE_MODE`, positive detent with the
modifier held. -/
theorem ino_modifier_suppresses_edits_witness :
    ((2 : Nat) = 2 ∨ (2 : Nat) = 3) ∧
    ((inoModeStep 2 true (-5) 0 ⟨4, 16, 37448, 125⟩).pulses = (⟨4, 16, 37448, 125⟩ : EditState).pulses ∧
     (inoModeStep 2 true (-5) 0 ⟨4, 16, 37448, 125⟩).patternLength = (⟨4, 16, 37448, 125⟩ : EditState).patternLength ∧
     (inoModeStep 2 true (-5) 0 ⟨4, 16, 37448, 125⟩).channelPattern = (⟨4, 16, 37448, 125⟩ : EditState).channelPattern ∧
     (inoModeStep 2 true (-5) 0 ⟨4, 16, 37448, 125⟩).delayTime =
       (if (-5 : Int) < 0 - 3 then tempoDec (⟨4, 16, 37448, 125⟩ : EditState).delayTime
        else if (-5 : Int) > 0 + 3 then tempoInc (⟨4, 16, 37448, 125⟩ : EditState).delayTime
        else (⟨4, 16, 37448, 125⟩ : EditState).delayTime)) :=
  ⟨Or.inl rfl, ino_modifier_suppresses_edits 2 (Or.inl rfl) (-5) 0 ⟨4, 16, 37448, 125⟩⟩

/-- C7 counterexample: in the `part_000` variant, `NUM_PULSE_MODE` does
not check the modifier: a positive detent with the modifier held
increments the pulse count and leaves the tempo unchanged. -/
theorem part0_modifier_not_suppressed :
    (part0ModeStep 2 true (-5) 0 ⟨0, 16, 0, 125⟩).pulses = 1 ∧
    (part0ModeStep 2 true (-5) 0 ⟨0, 16, 0, 125⟩).delayTime = 125 := by
  decide

/-- C6 (corrected): a pattern-length detent edit (mode
`PATTERN_LENGTH_MODE = 1` of the `part_000` variant; the same code is
compiled out of the main sketch) keeps `patternLength` within
`[0, 16]` — the decrement path clamps at 0, not at 1. -/
theorem patternLength_edit_clamped (escapeButton : Bool) (np op : Int)
    (s : EditState) (h0 : 0 ≤ s.patternLength) (h16 : s.patternLength ≤ 16) :
    0 ≤ (part0ModeStep 1 escapeButton np op s).patternLength ∧
    (part0ModeStep 1 escapeButton np op s).patternLength ≤ 16 := by
  simp only [part0ModeStep]
  split
  · split
    · exact ⟨h0, h16⟩
    · split
      · exact ⟨h0, h16⟩
      · exact ⟨h0, h16⟩
  · split
    · constructor <;> simp <;> split <;> omega
    · split
      · constructor <;> simp <;> split <;> omega
      · exact ⟨h0, h16⟩

/-- C6 witness: a decrement detent from `patternLength = 5`. -/
theorem patternLength_edit_clamped_witness :
    ((0 : Int) ≤ 5 ∧ (5 : Int) ≤ 16) ∧
    (0 ≤ (part0ModeStep 1 false 5 0 ⟨0, 5, 0, 125⟩).patternLength ∧
     (part0ModeStep 1 false 5 0 ⟨0, 5, 0, 125⟩).patternLength ≤ 16) :=
  ⟨by decide, patternLength_edit_clamped false 5 0 ⟨0, 5, 0, 125⟩ (by decide) (by decide)⟩

/-- C6 counterexample: decrementing from `patternLength = 1` yields 0,
so `1 ≤ patternLength` does not survive the edit. -/
theorem patternLength_edit_reaches_zero :
    (part0ModeStep 1 false 5 0 ⟨0, 1, 1, 125⟩).patternLength = 0 := by
  decide

namespace Ino

/-- The `Patch` struct of the main sketch: per-channel pulse counts,
pattern lengths (C `int`), patterns (16-bit `unsigned int`), and the
four mute flags. -/
structure Patch where
  pulses : Fin 4 → Int
  patternLength : Fin 4 → Int
  channelPattern : Fin 4 → Nat
  muteA : Bool
  muteB : Bool
  muteC : Bool
  muteD : Bool

/-- `createEmptyPatch` of the main sketch: zero pulses, zero pattern,
`patternLength[i] = DEFAULT_PATTERN_LENGTH = 16`, all mutes off. -/
def createEmptyPatch : Patch :=
  { pulses := fun _ => 0
    patternLength := fun _ => 16
    channelPattern := fun _ => 0
    muteA := false, muteB := false, muteC := false, muteD := false }

/-- The occupancy update of the clear handler (`TRIG_B` in
`PROGRAM_MODE`): `memoryCellsInUse & ~(1 << candidatePatchNumber)` on
the 16-bit `unsigned int` occupancy word.  The main sketch does not
touch `patches[]` in RAM here. -/
def clearCell (occ k : Nat) : Nat :=
  occ &&& ((2 ^ 16 - 1) ^^^ (1 <<< k))

/-- The recall handler (`TRIG_A` in `PROGRAM_MODE`) of the main
sketch: the slot becomes the live patch; if the occupancy bit of the
slot is clear, `createEmptyPatch` overwrites it first. -/
def recallPatch (occ : Nat) (patches : Nat → Patch) (k : Nat) : Patch :=
  if occ &&& (1 <<< k) ≠ 0 then patches k else createEmptyPatch

end Ino

namespace PartZero

/-- The `Patch` struct of the `part_000` variant (no mute flags). -/
structure Patch where
  pulses : Fin 4 → Int
  patternLength : Fin 4 → Int
  channelPattern : Fin 4 → Nat

/-- `createEmptyPatch` of the `part_000` variant: all fields zero,
including `patternLength[i] = 0`. -/
def createEmptyPatch : Patch :=
  { pulses := fun _ => 0
    patternLength := fun _ => 0
    channelPattern := fun _ => 0 }

/-- The clear handler (`TRIG_B` in `PROGRAM_MODE`) of the `part_000`
variant: clears the occupancy bit and overwrites the RAM slot with
`copyPatch(emptyPatch, patches[candidatePatchNumber])`. -/
def clearCell (occ : Nat) (patches : Nat → Patch) (k : Nat) :
    Nat × (Nat → Patch) :=
  (occ &&& ((2 ^ 16 - 1) ^^^ (1 <<< k)), Function.update patches k createEmptyPatch)

/-- The recall handler (`TRIG_A` in `PROGRAM_MODE`) of the `part_000`
variant: `copyPatch(patches[chosenPatchNumber], currentPatch)` with no
occupancy check. -/
def recallPatch (patches : Nat → Patch) (k : Nat) : Patch :=
  patches k

end PartZero

/-- C9 (corrected): clearing slot `k` zeroes occupancy bit `k` in both
variants, and a later recall of slot `k` yields the variant's empty
patch — all-zero with `patternLength[c] = 16` in the main sketch, but
all-zero with `patternLength[c] = 0` in the `part_000` variant. -/
theorem clear_then_recall (occ k : Nat) (hk : k < 16)
    (patches : Nat → Ino.Patch) (patches0 : Nat → PartZero.Patch) :
    Nat.testBit (Ino.clearCell occ k) k = false ∧
    Ino.recallPatch (Ino.clearCell occ k) patches k = Ino.createEmptyPatch ∧
    Ino.createEmptyPatch.patternLength = Function.const (Fin 4) 16 ∧
    Nat.testBit (PartZero.clearCell occ patches0 k).1 k = false ∧
    PartZero.recallPatch (PartZero.clearCell occ patches0 k).2 k
      = PartZero.createEmptyPatch ∧
    PartZero.createEmptyPatch.patternLength = Function.const (Fin 4) 0 := by
  have hbit : Nat.testBit (occ &&& ((2 ^ 16 - 1) ^^^ (1 <<< k))) k = false := by
    simp [Nat.testBit_and, Nat.testBit_xor, Nat.testBit_shiftLeft, testBit_one,
      testBit_allOnes16 k hk]
  have hand : Ino.clearCell occ k &&& (1 <<< k) = 0 := by
    rw [Nat.one_shiftLeft, Nat.and_two_pow]
    have : Nat.testBit (Ino.clearCell occ k) k = false := hbit
    rw [this]
    simp
  refine ⟨hbit, ?_, rfl, hbit, ?_, rfl⟩
  · simp [Ino.recallPatch, hand]
  · simp [PartZero.clearCell, PartZero.recallPatch]

/-- C9 witness: slot 3 of a fully occupied bank. -/
theorem clear_then_recall_witness :
    (3 < 16) ∧
    (Nat.testBit (Ino.clearCell 65535 3) 3 = false ∧
     Ino.recallPatch (Ino.clearCell 65535 3) (fun _ => Ino.createEmptyPatch) 3
       = Ino.createEmptyPatch ∧
     Ino.createEmptyPatch.patternLength = Function.const (Fin 4) 16 ∧
     Nat.testBit (PartZero.clearCell 65535 (fun _ => PartZero.createEmptyPatch) 3).1 3 = false ∧
     PartZero.recallPatch
       (PartZero.clearCell 65535 (fun _ => PartZero.createEmptyPatch) 3).2 3
       = PartZero.createEmptyPatch ∧
     PartZero.createEmptyPatch.patternLength = Function.const (Fin 4) 0) :=
  ⟨by decide, clear_then_recall 65535 3 (by decide)
    (fun _ => Ino.createEmptyPatch) (fun _ => PartZero.createEmptyPatch)⟩

/-- C9 counterexample: in the `part_000` variant, recalling a slot
right after clearing it yields a patch with `patternLength[0] = 0`,
not the claimed `DEFAULT_LENGTH = 16`. -/
theorem part0_recall_after_clear_length_zero :
    (PartZero.recallPatch
        (PartZero.clearCell 65535
          (fun _ => ⟨Function.const (Fin 4) 5, Function.const (Fin 4) 12,
            Function.const (Fin 4) 37⟩) 3).2 3).patternLength 0 = 0 ∧
    (0 : Int) ≠ 16 := by
  constructor
  · simp [PartZero.clearCell, PartZero.recallPatch, PartZero.createEmptyPatch]
  · decide

end EuclidOMatic
